import Mathlib

/-!
Shallow embedding of the crius Image Management subsystem
(src/src/image/mod.rs) and proofs about its CRI-facing operations.

The in-memory index (a HashMap from reference string to image record) is
modelled as an association list with unique keys; the on-disk images
directory is modelled as an optional list of directory entries, each entry
being either a plain file or a subdirectory holding named files.  Fallible
I/O steps (directory creation, file writes, the registry pull) are driven
by explicit oracle parameters, so every execution path of the Rust code
corresponds to a choice of oracle values.  Rust panics (unwrap, expect,
out-of-bounds slicing) are modelled as a distinguished outcome.
-/

namespace Crius

/-- Image record held in the in-memory index (proto type Image, with the
fields the code populates: id, repo_tags, size). -/
structure Image where
  id : String
  repo_tags : List String
  size : Nat
deriving Repr, DecidableEq

/-- CriusImage: the metadata record passed to save_image_metadata. -/
structure CriusImage where
  id : String
  repo_tags : List String
  size : Nat
deriving Repr, DecidableEq

/-- ImageMeta: the metadata record parsed back from metadata.json. -/
structure ImageMeta where
  id : String
  repo_tags : List String
  size : Nat
deriving Repr, DecidableEq

/-- gRPC status codes the image service produces. -/
inductive GStatus where
  | invalidArgument (msg : String)
  | internal (msg : String)
  | notFound (msg : String)
deriving Repr, DecidableEq

/-- ImageSpec: the image reference carried in requests. -/
structure ImageSpec where
  image : String
deriving Repr, DecidableEq

/-- AuthConfig: basic credentials carried in a pull request. -/
structure AuthConfig where
  username : String
  password : String
deriving Repr, DecidableEq

/-- RegistryAuth as passed to the oci_distribution client. -/
inductive RegistryAuth where
  | anonymous
  | basic (username password : String)
deriving Repr, DecidableEq

structure PullImageRequest where
  image : Option ImageSpec
  auth : Option AuthConfig
deriving Repr, DecidableEq

structure ImageStatusRequest where
  image : Option ImageSpec
deriving Repr, DecidableEq

structure RemoveImageRequest where
  image : Option ImageSpec
deriving Repr, DecidableEq

structure ImageFsInfoRequest where
deriving Repr, DecidableEq

/-- One layer blob returned by the registry. -/
structure ImageLayer where
  data : List Nat
deriving Repr, DecidableEq

/-- ImageData returned by Client::pull: manifest digest and layer blobs. -/
structure ImageData where
  digest : Option String
  layers : List ImageLayer
deriving Repr, DecidableEq

/-! ### Association lists (model of HashMap with unique keys) -/

/-- HashMap::get. -/
def alistLookup {κ α : Type} [DecidableEq κ] (k : κ) : List (κ × α) → Option α
  | [] => none
  | (k', v) :: rest => if k' = k then some v else alistLookup k rest

/-- HashMap::insert: replace the binding for an existing key, otherwise add. -/
def alistInsert {κ α : Type} [DecidableEq κ] (k : κ) (v : α) :
    List (κ × α) → List (κ × α)
  | [] => [(k, v)]
  | (k', v') :: rest =>
    if k' = k then (k, v) :: rest else (k', v') :: alistInsert k v rest

/-- HashMap::remove (dropping every binding of the key; a HashMap holds at
most one). -/
def alistRemove {κ α : Type} [DecidableEq κ] (k : κ) (m : List (κ × α)) :
    List (κ × α) :=
  m.filter (fun p => decide (p.1 ≠ k))

/-! ### Filesystem model: the images directory -/

/-- Names of files inside an image subdirectory.  The code only ever writes
metadata.json and layer files named n.tar.gz; those names are distinct for
all n, which the inductive presentation makes structural. -/
inductive FileName where
  | metadataJson
  | layerFile (i : Nat)
  | other (s : String)
deriving Repr, DecidableEq

/-- Contents of a file as far as the image service observes them. -/
inductive FileData where
  | metaJson (meta : ImageMeta)
  | corrupt
  | unreadable
  | layerData (bytes : List Nat)
deriving Repr, DecidableEq

/-- A direct child of the images directory: either a plain file or an image
subdirectory with its files. -/
inductive DirEntry where
  | fileEntry (name : String)
  | dirEntry (name : String) (files : List (FileName × FileData))
deriving Repr, DecidableEq

def dirName : DirEntry → String
  | .fileEntry n => n
  | .dirEntry n _ => n

/-- The images directory: none when it does not exist on disk. -/
def Fs : Type := Option (List DirEntry)

instance : DecidableEq Fs := by
  unfold Fs
  infer_instance

/-- create_dir_all for the image subdirectory id. -/
def ensureDir (id : String) : List DirEntry → List DirEntry
  | [] => [.dirEntry id []]
  | e :: rest => if dirName e = id then e :: rest else e :: ensureDir id rest

def fsCreateDir (fs : Fs) (id : String) : Fs :=
  some (ensureDir id (fs.getD []))

/-- fs::write of a file into the image subdirectory id. -/
def writeInEntries (id : String) (fname : FileName) (d : FileData) :
    List DirEntry → List DirEntry
  | [] => [.dirEntry id [(fname, d)]]
  | .dirEntry n files :: rest =>
    if n = id then .dirEntry n (alistInsert fname d files) :: rest
    else .dirEntry n files :: writeInEntries id fname d rest
  | .fileEntry n :: rest => .fileEntry n :: writeInEntries id fname d rest

def fsWrite (fs : Fs) (id : String) (fname : FileName) (d : FileData) : Fs :=
  some (writeInEntries id fname d (fs.getD []))

/-- Path::exists for a file inside the image subdirectory id. -/
def fsFileExists (fs : Fs) (id : String) (fname : FileName) : Bool :=
  (fs.getD []).any fun e =>
    match e with
    | .dirEntry n files => if n = id then (alistLookup fname files).isSome else false
    | .fileEntry _ => false

/-- An image id is visible when its directory carries metadata.json, the
sole marker of a valid, loadable image directory. -/
def entryVisibleId : DirEntry → Option String
  | .dirEntry n files =>
    if (alistLookup FileName.metadataJson files).isSome then some n else none
  | .fileEntry _ => none

def visibleImageIds (fs : Fs) : List String :=
  (fs.getD []).filterMap entryVisibleId

/-! ### save_image_metadata -/

/-- save_image_metadata: checks whether metadata.json already exists, runs
create_dir_all on its parent when it does not (dirOk says whether that
call succeeds), then writes the serialized CriusImage (writeOk says
whether the write succeeds).  On error the filesystem reached so far is
returned alongside the message. -/
def save_image_metadata (dirOk writeOk : Bool) (fs : Fs) (img : CriusImage) :
    Except (String × Fs) Fs :=
  let metaExists := fsFileExists fs img.id FileName.metadataJson
  if !metaExists && !dirOk then
    .error ("Failed to create metadata directory", fs)
  else
    let fs1 := if metaExists then fs else fsCreateDir fs img.id
    if writeOk then
      .ok (fsWrite fs1 img.id FileName.metadataJson
        (.metaJson ⟨img.id, img.repo_tags, img.size⟩))
    else
      .error ("Failed to write metadata", fs1)

/-! ### load_local_images -/

/-- entry.path().is_file(). -/
def entryIsFile : DirEntry → Bool
  | .fileEntry _ => true
  | .dirEntry _ _ => false

/-- entry.path().join("metadata.json"), when it exists: under a plain file
no child path exists. -/
def entryMetaFile : DirEntry → Option FileData
  | .fileEntry _ => none
  | .dirEntry _ files => alistLookup FileName.metadataJson files

/-- std::fs::read followed by serde_json::from_slice, with the context
messages of the code. -/
def readMeta : FileData → Except String ImageMeta
  | .metaJson m => .ok m
  | .unreadable => .error "Failed to read metadata"
  | .corrupt => .error "Failed to parse metadata"
  | .layerData _ => .error "Failed to parse metadata"

def imageOfMeta (meta : ImageMeta) : Image :=
  { id := meta.id, repo_tags := meta.repo_tags, size := meta.size }

/-- The for loop over meta.repo_tags inserting the image under every tag. -/
def insertAllTags (meta : ImageMeta) (idx : List (String × Image)) :
    List (String × Image) :=
  meta.repo_tags.foldl (fun m tag => alistInsert tag (imageOfMeta meta) m) idx

/-- The body of the read_dir loop of load_local_images. -/
def loadEntries (idx : List (String × Image)) :
    List DirEntry → Except String (List (String × Image))
  | [] => .ok idx
  | e :: rest =>
    match entryMetaFile e with
    | none => loadEntries idx rest
    | some fd =>
      match readMeta fd with
      | .error msg => .error msg
      | .ok meta =>
        let idx' := if entryIsFile e then insertAllTags meta idx else idx
        loadEntries idx' rest

/-- load_local_images: returns Ok immediately when the images directory
does not exist, otherwise folds the loop body over its entries. -/
def load_local_images (idx : List (String × Image)) (fs : Fs) :
    Except String (List (String × Image)) :=
  match fs with
  | none => .ok idx
  | some entries => loadEntries idx entries

/-! ### image_status, list_images, remove_image, image_fs_info -/

/-- Rust str::starts_with for a string pattern: byte-prefix comparison,
which over UTF-8 coincides with character-list prefix comparison. -/
def strStartsWith (s pat : String) : Bool :=
  pat.data.isPrefixOf s.data

/-- image_status: exact-tag lookup, then a scan of the records for one
whose id starts with the requested string, then NotFound. -/
def image_status (idx : List (String × Image)) (req : ImageStatusRequest) :
    Except GStatus Image :=
  match req.image with
  | none => .error (.invalidArgument "Image not specified")
  | some image_spec =>
    match alistLookup image_spec.image idx with
    | some image => .ok image
    | none =>
      match (idx.map Prod.snd).find? (fun img => strStartsWith img.id image_spec.image) with
      | some image => .ok image
      | none => .error (.notFound "Image not found")

/-- list_images: all records currently in the index. -/
def list_images (idx : List (String × Image)) : List Image :=
  idx.map Prod.snd

/-- remove_image: req.image.unwrap() panics on a missing field (modelled as
none); otherwise HashMap::remove, Ok when something was removed, NotFound
otherwise.  The resulting index is returned in both non-panic cases. -/
def remove_image (idx : List (String × Image)) (req : RemoveImageRequest) :
    Option (Except GStatus Unit × List (String × Image)) :=
  match req.image with
  | none => none
  | some image_spec =>
    let idx' := alistRemove image_spec.image idx
    if (alistLookup image_spec.image idx).isSome then
      some (.ok (), idx')
    else
      some (.error (.notFound "Image not found"), idx')

/-- image_fs_info: the code is a stub that always answers NotFound. -/
def image_fs_info (_req : ImageFsInfoRequest) : Except GStatus Unit :=
  .error (.notFound "Image not found")

/-! ### pull_image -/

/-- Rust str::replace(pat, "") specialised to the pattern sha256:
(left-to-right, non-overlapping removal of every occurrence). -/
def stripSha256 : List Char → List Char
  | 's' :: 'h' :: 'a' :: '2' :: '5' :: '6' :: ':' :: rest => stripSha256 rest
  | c :: rest => c :: stripSha256 rest
  | [] => []

/-- The image id computation of pull_image: digest.expect panics on a
missing digest, and the byte slice [..12] panics when fewer than 12
characters remain after stripping; both panics are modelled as none. -/
def computeImageId (digest : Option String) : Option String :=
  match digest with
  | none => none
  | some d =>
    let stripped := stripSha256 d.toList
    if 12 ≤ stripped.length then
      some ("sha256:" ++ String.mk (stripped.take 12))
    else
      none

/-- Success flags for the fallible local I/O steps of pull_image. -/
structure PullOracle where
  refValid : Bool
  createDirOk : Bool
  layerOk : Nat → Bool
  metaDirOk : Bool
  metaWriteOk : Bool

/-- The state pull_image touches: the in-memory index and the images
directory on disk. -/
structure PullState where
  images : List (String × Image)
  fs : Fs
deriving DecidableEq

/-- Outcome of a pull_image call. -/
inductive PullOutcome where
  | panic
  | failure (code : GStatus) (st : PullState)
  | success (st : PullState) (imageRef : String)
deriving DecidableEq

/-- The layer-writing loop: for (i, layer) in layers.iter().enumerate(),
write i.tar.gz, failing with Internal on a failed write. -/
def writeLayers (o : PullOracle) (fs : Fs) (id : String) :
    List ImageLayer → Nat → Except (GStatus × Fs) Fs
  | [], _ => .ok fs
  | layer :: rest, i =>
    if o.layerOk i then
      writeLayers o (fsWrite fs id (FileName.layerFile i) (.layerData layer.data)) id rest (i + 1)
    else
      .error (.internal "Failed to write layer", fs)

/-- pull_image.  The registry client is a function of the reference string
and the RegistryAuth value the code passes to Client::pull; the code
computes auth from the request credentials but passes the literal
RegistryAuth::Anonymous at the call site, which the model reproduces. -/
def pull_image (registry : String → RegistryAuth → Except String ImageData)
    (o : PullOracle) (st : PullState) (req : PullImageRequest) : PullOutcome :=
  match req.image with
  | none => .failure (.invalidArgument "Image spec not specified") st
  | some image_spec =>
    let _auth : RegistryAuth :=
      match req.auth with
      | some a => .basic a.username a.password
      | none => .anonymous
    if !o.refValid then
      .failure (.invalidArgument "Invalid image reference") st
    else
      match registry image_spec.image RegistryAuth.anonymous with
      | .error e => .failure (.internal ("Failed to pull image: " ++ e)) st
      | .ok image_data =>
        match computeImageId image_data.digest with
        | none => .panic
        | some image_id =>
          let image : Image :=
            { id := image_id, repo_tags := [image_spec.image], size := 0 }
          if !o.createDirOk then
            .failure (.internal "Failed to create image directory") st
          else
            let fs1 := fsCreateDir st.fs image_id
            match writeLayers o fs1 image_id image_data.layers 0 with
            | .error (code, fs2) => .failure code { st with fs := fs2 }
            | .ok fs2 =>
              match save_image_metadata o.metaDirOk o.metaWriteOk fs2
                  ⟨image_id, [image_spec.image], 0⟩ with
              | .error (msg, fs3) =>
                .failure (.internal ("Failed to save image metadata: " ++ msg))
                  { st with fs := fs3 }
              | .ok fs3 =>
                .success
                  { images := alistInsert image_spec.image image st.images, fs := fs3 }
                  image_id

/-- The auth value lines 172-175 compute from the request credentials.
The code then passes the literal RegistryAuth::Anonymous to Client::pull,
leaving this value unused (the let binding of _auth above); requestAuth is
the standalone translation of that computation. -/
def requestAuth (req : PullImageRequest) : RegistryAuth :=
  match req.auth with
  | some a => .basic a.username a.password
  | none => .anonymous

/-- The filesystem carried by either constructor of a writeLayers result. -/
def exceptFs : Except (GStatus × Fs) Fs → Fs
  | .ok fs => fs
  | .error (_, fs) => fs

/-! ### Association list lemmas -/

theorem alistLookup_insert_self {κ α : Type} [DecidableEq κ] (a : κ) (v : α)
    (m : List (κ × α)) : alistLookup a (alistInsert a v m) = some v := by
  induction m with
  | nil => simp [alistInsert, alistLookup]
  | cons p rest ih =>
    obtain ⟨k0, v0⟩ := p
    by_cases h0 : k0 = a
    · subst h0
      simp [alistInsert, alistLookup]
    · simp [alistInsert, alistLookup, h0, ih]

theorem alistLookup_insert_ne {κ α : Type} [DecidableEq κ] {a b : κ} (v : α)
    (m : List (κ × α)) (h : a ≠ b) :
    alistLookup b (alistInsert a v m) = alistLookup b m := by
  induction m with
  | nil => simp [alistInsert, alistLookup, h]
  | cons p rest ih =>
    obtain ⟨k0, v0⟩ := p
    by_cases h0 : k0 = a
    · subst h0
      simp [alistInsert, alistLookup, h]
    · simp [alistInsert, alistLookup, h0, ih]

theorem alistRemove_of_lookup_none {κ α : Type} [DecidableEq κ] {b : κ}
    (m : List (κ × α)) (h : alistLookup b m = none) : alistRemove b m = m := by
  induction m with
  | nil => rfl
  | cons p rest ih =>
    obtain ⟨k0, v0⟩ := p
    by_cases h0 : k0 = b
    · subst h0
      simp [alistLookup] at h
    · rw [alistLookup, if_neg h0] at h
      simp [alistRemove, List.filter, h0] at ih ⊢
      exact ih h

theorem alistLookup_remove_self {κ α : Type} [DecidableEq κ] (b : κ)
    (m : List (κ × α)) : alistLookup b (alistRemove b m) = none := by
  induction m with
  | nil => rfl
  | cons p rest ih =>
    obtain ⟨k0, v0⟩ := p
    by_cases h0 : k0 = b
    · subst h0
      simpa [alistRemove, List.filter] using ih
    · simpa [alistRemove, List.filter, h0, alistLookup] using ih

/-! ### Visibility preservation lemmas -/

theorem visible_ensureDir (id : String) (l : List DirEntry) :
    (ensureDir id l).filterMap entryVisibleId = l.filterMap entryVisibleId := by
  induction l with
  | nil => simp [ensureDir, entryVisibleId, alistLookup]
  | cons e rest ih =>
    by_cases h0 : dirName e = id
    · simp [ensureDir, h0]
    · simp [ensureDir, h0, List.filterMap_cons, ih]

theorem visible_fsCreateDir (fs : Fs) (id : String) :
    visibleImageIds (fsCreateDir fs id) = visibleImageIds fs := by
  cases fs with
  | none => simp [visibleImageIds, fsCreateDir, visible_ensureDir]
  | some l => simp [visibleImageIds, fsCreateDir, visible_ensureDir]

theorem visible_writeInEntries (id : String) (fname : FileName) (d : FileData)
    (hf : fname ≠ FileName.metadataJson) (l : List DirEntry) :
    (writeInEntries id fname d l).filterMap entryVisibleId =
      l.filterMap entryVisibleId := by
  induction l with
  | nil =>
    simp [writeInEntries, entryVisibleId, alistLookup, hf]
  | cons e rest ih =>
    cases e with
    | fileEntry n => simp [writeInEntries, List.filterMap_cons, entryVisibleId, ih]
    | dirEntry n files =>
      by_cases h0 : n = id
      · subst h0
        simp [writeInEntries, List.filterMap_cons, entryVisibleId,
          alistLookup_insert_ne _ _ hf]
      · simp [writeInEntries, h0, List.filterMap_cons, ih]

theorem visible_fsWrite (fs : Fs) (id : String) (fname : FileName) (d : FileData)
    (hf : fname ≠ FileName.metadataJson) :
    visibleImageIds (fsWrite fs id fname d) = visibleImageIds fs := by
  cases fs with
  | none => simp [visibleImageIds, fsWrite, visible_writeInEntries id fname d hf]
  | some l => simp [visibleImageIds, fsWrite, visible_writeInEntries id fname d hf]

theorem visible_writeLayers (o : PullOracle) (id : String) :
    ∀ (layers : List ImageLayer) (i : Nat) (fs : Fs),
      visibleImageIds (exceptFs (writeLayers o fs id layers i)) =
        visibleImageIds fs := by
  intro layers
  induction layers with
  | nil => intro i fs; rfl
  | cons layer rest ih =>
    intro i fs
    by_cases hl : o.layerOk i
    · rw [writeLayers, if_pos hl, ih]
      exact visible_fsWrite fs id (FileName.layerFile i) (.layerData layer.data) (by simp)
    · rw [writeLayers, if_neg hl]
      rfl

theorem visible_writeLayers_ok (o : PullOracle) (id : String)
    (layers : List ImageLayer) (i : Nat) (fs fs' : Fs)
    (h : writeLayers o fs id layers i = .ok fs') :
    visibleImageIds fs' = visibleImageIds fs := by
  have hv := visible_writeLayers o id layers i fs
  rw [h] at hv
  exact hv

theorem visible_writeLayers_error (o : PullOracle) (id : String)
    (layers : List ImageLayer) (i : Nat) (fs fs' : Fs) (c : GStatus)
    (h : writeLayers o fs id layers i = .error (c, fs')) :
    visibleImageIds fs' = visibleImageIds fs := by
  have hv := visible_writeLayers o id layers i fs
  rw [h] at hv
  exact hv

theorem visible_save_error (dirOk writeOk : Bool) (fs fs' : Fs)
    (img : CriusImage) (msg : String)
    (h : save_image_metadata dirOk writeOk fs img = .error (msg, fs')) :
    visibleImageIds fs' = visibleImageIds fs := by
  unfold save_image_metadata at h
  by_cases hm : fsFileExists fs img.id FileName.metadataJson
  · simp [hm] at h
    cases writeOk with
    | true => simp at h
    | false =>
      simp at h
      rw [h.2]
  · cases dirOk with
    | false =>
      simp [hm] at h
      rw [h.2]
    | true =>
      simp [hm] at h
      cases writeOk with
      | true => simp at h
      | false =>
        simp at h
        rw [← h.2, visible_fsCreateDir]

/-! ### find? and filter lemmas -/

theorem find?_of_filter_singleton {α : Type} (p : α → Bool) :
    ∀ (l : List α) (a : α), l.filter p = [a] → l.find? p = some a := by
  intro l
  induction l with
  | nil => intro a h; simp at h
  | cons x rest ih =>
    intro a h
    by_cases hx : p x
    · rw [List.filter_cons, if_pos hx] at h
      obtain ⟨rfl, -⟩ := List.cons_eq_cons.mp h
      simp [List.find?, hx]
    · rw [List.filter_cons, if_neg hx] at h
      simp only [List.find?_cons, hx]
      exact ih a h

/-! ### Claim theorems -/

/-- Claim C1 (code bug witnessed): the round-trip property fails on the
code.  Saving metadata for an image (id sha256:deadbeefcafe, one tag,
size 42) produces an images directory whose only entry is a subdirectory
holding that metadata.json; yet load_local_images on a fresh, empty index
returns the empty index, because the insertion is guarded by
entry.path().is_file(), which is false for the image subdirectory.  The
record is therefore not reachable under its tag after rehydration. -/
theorem save_then_load_yields_empty_index :
    save_image_metadata true true none
        ⟨"sha256:deadbeefcafe", ["library/test:latest"], 42⟩ =
      .ok (some [.dirEntry "sha256:deadbeefcafe"
        [(.metadataJson, .metaJson ⟨"sha256:deadbeefcafe", ["library/test:latest"], 42⟩)]]) ∧
    load_local_images []
        (some [.dirEntry "sha256:deadbeefcafe"
          [(.metadataJson, .metaJson ⟨"sha256:deadbeefcafe", ["library/test:latest"], 42⟩)]]) =
      .ok [] := ⟨rfl, rfl⟩

/-- Claim C2: whenever pull_image returns an error (missing field, invalid
reference, registry failure, directory-creation failure, layer-write
failure, or metadata-write failure), the in-memory index is exactly the
index before the call, and the set of visible image directories (those
carrying metadata.json, the sole marker of a valid, loadable image) is
unchanged — the index is mutated only on full success. -/
theorem pull_image_failure_preserves_index_and_visible_images
    (registry : String → RegistryAuth → Except String ImageData)
    (o : PullOracle) (st : PullState) (req : PullImageRequest)
    (code : GStatus) (st' : PullState)
    (h : pull_image registry o st req = .failure code st') :
    st'.images = st.images ∧ visibleImageIds st'.fs = visibleImageIds st.fs := by
  rcases hA : req.image with - | image_spec
  · simp [pull_image, hA, PullOutcome.failure.injEq] at h
    obtain ⟨-, h2⟩ := h
    subst h2
    exact ⟨rfl, rfl⟩
  · rcases hB : o.refValid with - | -
    · simp [pull_image, hA, hB, PullOutcome.failure.injEq] at h
      obtain ⟨-, h2⟩ := h
      subst h2
      exact ⟨rfl, rfl⟩
    · rcases hC : registry image_spec.image RegistryAuth.anonymous with e | image_data
      · simp [pull_image, hA, hB, hC, PullOutcome.failure.injEq] at h
        obtain ⟨-, h2⟩ := h
        subst h2
        exact ⟨rfl, rfl⟩
      · rcases hD : computeImageId image_data.digest with - | image_id
        · simp [pull_image, hA, hB, hC, hD] at h
        · rcases hE : o.createDirOk with - | -
          · simp [pull_image, hA, hB, hC, hD, hE, PullOutcome.failure.injEq] at h
            obtain ⟨-, h2⟩ := h
            subst h2
            exact ⟨rfl, rfl⟩
          · rcases hF : writeLayers o (fsCreateDir st.fs image_id) image_id
                image_data.layers 0 with ⟨c2, fs2⟩ | fs2
            · simp [pull_image, hA, hB, hC, hD, hE, hF, PullOutcome.failure.injEq] at h
              obtain ⟨-, h2⟩ := h
              subst h2
              refine ⟨rfl, ?_⟩
              rw [show ({ images := st.images, fs := fs2 } : PullState).fs = fs2 from rfl,
                visible_writeLayers_error _ _ _ _ _ _ _ hF, visible_fsCreateDir]
            · rcases hG : save_image_metadata o.metaDirOk o.metaWriteOk fs2
                  ⟨image_id, [image_spec.image], 0⟩ with ⟨msg, fs3⟩ | fs3
              · simp [pull_image, hA, hB, hC, hD, hE, hF, hG,
                  PullOutcome.failure.injEq] at h
                obtain ⟨-, h2⟩ := h
                subst h2
                refine ⟨rfl, ?_⟩
                rw [show ({ images := st.images, fs := fs3 } : PullState).fs = fs3 from rfl,
                  visible_save_error _ _ _ _ _ _ hG,
                  visible_writeLayers_ok _ _ _ _ _ _ hF, visible_fsCreateDir]
              · simp [pull_image, hA, hB, hC, hD, hE, hF, hG] at h

/-- Witness for C2: a concrete pull whose metadata write fails leaves the
index empty as before and no visible image directory, although layer
files were already written. -/
theorem pull_image_failure_preservation_witness :
    ([] : List (String × Image)) = [] ∧
    visibleImageIds (some [.dirEntry "sha256:deadbeefcafe"
      [(.layerFile 0, .layerData [1, 2, 3])]]) = visibleImageIds none :=
  pull_image_failure_preserves_index_and_visible_images
    (fun _ _ => .ok ⟨some "sha256:deadbeefcafef00d1234", [⟨[1, 2, 3]⟩]⟩)
    ⟨true, true, fun _ => true, true, false⟩ ⟨[], none⟩
    ⟨some ⟨"library/test:latest"⟩, none⟩
    (.internal "Failed to save image metadata: Failed to write metadata")
    ⟨[], some [.dirEntry "sha256:deadbeefcafe" [(.layerFile 0, .layerData [1, 2, 3])]]⟩
    (by decide)

/-- Claim C3: after a successful pull_image for a request naming reference
image_spec, an image_status for the same reference string returns a
record whose id equals the string pull_image returned. -/
theorem pull_image_success_then_image_status_id
    (registry : String → RegistryAuth → Except String ImageData)
    (o : PullOracle) (st : PullState) (req : PullImageRequest)
    (image_spec : ImageSpec) (st' : PullState) (ret : String)
    (hreq : req.image = some image_spec)
    (h : pull_image registry o st req = .success st' ret) :
    ∃ img, image_status st'.images ⟨some image_spec⟩ = .ok img ∧ img.id = ret := by
  rcases hB : o.refValid with - | -
  · simp [pull_image, hreq, hB] at h
  · rcases hC : registry image_spec.image RegistryAuth.anonymous with e | image_data
    · simp [pull_image, hreq, hB, hC] at h
    · rcases hD : computeImageId image_data.digest with - | image_id
      · simp [pull_image, hreq, hB, hC, hD] at h
      · rcases hE : o.createDirOk with - | -
        · simp [pull_image, hreq, hB, hC, hD, hE] at h
        · rcases hF : writeLayers o (fsCreateDir st.fs image_id) image_id
              image_data.layers 0 with ⟨c2, fs2⟩ | fs2
          · simp [pull_image, hreq, hB, hC, hD, hE, hF] at h
          · rcases hG : save_image_metadata o.metaDirOk o.metaWriteOk fs2
                ⟨image_id, [image_spec.image], 0⟩ with ⟨msg, fs3⟩ | fs3
            · simp [pull_image, hreq, hB, hC, hD, hE, hF, hG] at h
            · simp [pull_image, hreq, hB, hC, hD, hE, hF, hG,
                PullOutcome.success.injEq] at h
              obtain ⟨h1, h2⟩ := h
              subst h2
              rw [← h1]
              refine ⟨⟨image_id, [image_spec.image], 0⟩, ?_, rfl⟩
              simp [image_status, alistLookup_insert_self]

/-- Witness for C3: the end-to-end scenario of the spec, evaluated. -/
theorem pull_image_success_then_image_status_id_witness :
    ∃ img, image_status
        [("library/test:latest", ⟨"sha256:deadbeefcafe", ["library/test:latest"], 0⟩)]
        ⟨some ⟨"library/test:latest"⟩⟩ = .ok img ∧ img.id = "sha256:deadbeefcafe" :=
  pull_image_success_then_image_status_id
    (fun _ _ => .ok ⟨some "sha256:deadbeefcafef00d1234", [⟨[1, 2, 3]⟩]⟩)
    ⟨true, true, fun _ => true, true, true⟩ ⟨[], none⟩
    ⟨some ⟨"library/test:latest"⟩, none⟩ ⟨"library/test:latest"⟩
    ⟨[("library/test:latest", ⟨"sha256:deadbeefcafe", ["library/test:latest"], 0⟩)],
      some [.dirEntry "sha256:deadbeefcafe"
        [(.layerFile 0, .layerData [1, 2, 3]),
         (.metadataJson, .metaJson ⟨"sha256:deadbeefcafe", ["library/test:latest"], 0⟩)]]⟩
    "sha256:deadbeefcafe" rfl (by decide)

/-- Claim C4: when the registry response carries digest d, a successful
pull returns the identifier sha256: followed by the first 12 characters
of d with every sha256: occurrence removed. -/
theorem pull_image_identifier_from_stripped_digest
    (registry : String → RegistryAuth → Except String ImageData)
    (o : PullOracle) (st : PullState) (req : PullImageRequest)
    (image_spec : ImageSpec) (data : ImageData) (d : String)
    (st' : PullState) (ret : String)
    (hreq : req.image = some image_spec)
    (hreg : registry image_spec.image RegistryAuth.anonymous = .ok data)
    (hd : data.digest = some d)
    (h : pull_image registry o st req = .success st' ret) :
    ret = "sha256:" ++ String.mk ((stripSha256 d.data).take 12) := by
  rcases hB : o.refValid with - | -
  · simp [pull_image, hreq, hB] at h
  · rcases hD : computeImageId data.digest with - | image_id
    · simp [pull_image, hreq, hB, hreg, hD] at h
    · have hid : image_id = "sha256:" ++ String.mk ((stripSha256 d.data).take 12) := by
        by_cases hl : 12 ≤ (stripSha256 d.data).length
        · simp [computeImageId, hd, hl] at hD
          exact hD.symm
        · simp [computeImageId, hd, hl] at hD
      rcases hE : o.createDirOk with - | -
      · simp [pull_image, hreq, hB, hreg, hD, hE] at h
      · rcases hF : writeLayers o (fsCreateDir st.fs image_id) image_id
            data.layers 0 with ⟨c2, fs2⟩ | fs2
        · simp [pull_image, hreq, hB, hreg, hD, hE, hF] at h
        · rcases hG : save_image_metadata o.metaDirOk o.metaWriteOk fs2
              ⟨image_id, [image_spec.image], 0⟩ with ⟨msg, fs3⟩ | fs3
          · simp [pull_image, hreq, hB, hreg, hD, hE, hF, hG] at h
          · simp [pull_image, hreq, hB, hreg, hD, hE, hF, hG,
              PullOutcome.success.injEq] at h
            rw [← h.2, hid]

/-- Witness for C4: digest sha256:deadbeefcafef00d1234 yields identifier
sha256:deadbeefcafe. -/
theorem pull_image_identifier_from_stripped_digest_witness :
    "sha256:deadbeefcafe" =
      "sha256:" ++ String.mk ((stripSha256 "sha256:deadbeefcafef00d1234".data).take 12) :=
  pull_image_identifier_from_stripped_digest
    (fun _ _ => .ok ⟨some "sha256:deadbeefcafef00d1234", [⟨[1, 2, 3]⟩]⟩)
    ⟨true, true, fun _ => true, true, true⟩ ⟨[], none⟩
    ⟨some ⟨"library/test:latest"⟩, none⟩ ⟨"library/test:latest"⟩
    ⟨some "sha256:deadbeefcafef00d1234", [⟨[1, 2, 3]⟩]⟩ "sha256:deadbeefcafef00d1234"
    ⟨[("library/test:latest", ⟨"sha256:deadbeefcafe", ["library/test:latest"], 0⟩)],
      some [.dirEntry "sha256:deadbeefcafe"
        [(.layerFile 0, .layerData [1, 2, 3]),
         (.metadataJson, .metaJson ⟨"sha256:deadbeefcafe", ["library/test:latest"], 0⟩)]]⟩
    "sha256:deadbeefcafe" rfl rfl rfl (by decide)

/-- Claim C5 (code bug witnessed): pull_image never passes the request
credentials to the registry client.  The outcome of any pull is unchanged
when the registry client is replaced by one that ignores its auth
argument and always behaves as it would under anonymous auth, because
the call site passes the literal RegistryAuth::Anonymous and the auth
value computed from the request (requestAuth) is left unused. -/
theorem pull_image_depends_only_on_anonymous_registry
    (registry : String → RegistryAuth → Except String ImageData)
    (o : PullOracle) (st : PullState) (req : PullImageRequest) :
    pull_image registry o st req =
      pull_image (fun r _ => registry r RegistryAuth.anonymous) o st req := rfl

/-- Claim C6 (code bug witnessed): an images directory holding one valid
image subdirectory and one whose metadata.json is unparseable makes
load_local_images fail as a whole — the corrupt entry is not skipped and
the valid image is not loaded, because the read and parse errors are
propagated out of the loop. -/
theorem load_local_images_fails_on_single_corrupt_entry :
    load_local_images []
        (some [.dirEntry "sha256:aaaabbbbcccc"
            [(.metadataJson, .metaJson ⟨"sha256:aaaabbbbcccc", ["good:latest"], 7⟩)],
          .dirEntry "bad" [(.metadataJson, .corrupt)]]) =
      .error "Failed to parse metadata" := rfl

/-- Claim C7: image_status resolution order.  An exact tag match is
served first; on a miss, the records are scanned for one whose id starts
with the requested string, and when exactly one record matches it is
returned; when neither an exact tag nor any id-prefix match exists the
call fails with NotFound. -/
theorem image_status_resolution_order
    (idx : List (String × Image)) (image_spec : ImageSpec) :
    (∀ img, alistLookup image_spec.image idx = some img →
      image_status idx ⟨some image_spec⟩ = .ok img) ∧
    (∀ img, alistLookup image_spec.image idx = none →
      (idx.map Prod.snd).filter (fun i => strStartsWith i.id image_spec.image) = [img] →
      image_status idx ⟨some image_spec⟩ = .ok img) ∧
    (alistLookup image_spec.image idx = none →
      (∀ i ∈ idx.map Prod.snd, strStartsWith i.id image_spec.image = false) →
      image_status idx ⟨some image_spec⟩ = .error (.notFound "Image not found")) := by
  refine ⟨?_, ?_, ?_⟩
  · intro img hlk
    simp [image_status, hlk]
  · intro img hlk hfil
    have hf := find?_of_filter_singleton (fun i => strStartsWith i.id image_spec.image)
      (idx.map Prod.snd) img hfil
    simp [image_status, hlk, hf]
  · intro hlk hall
    have hf : (idx.map Prod.snd).find? (fun i => strStartsWith i.id image_spec.image) = none := by
      rw [List.find?_eq_none]
      intro x hx
      simp [hall x hx]
    simp [image_status, hlk, hf]

/-- Witness for C7: exact tag hit, unique id-prefix hit, and NotFound on a
two-record index. -/
theorem image_status_resolution_order_witness :
    image_status
        [("tagA", ⟨"sha256:abc123000000", ["tagA"], 1⟩),
         ("tagB", ⟨"sha256:xyz999000000", ["tagB"], 2⟩)]
        ⟨some ⟨"tagA"⟩⟩ = .ok ⟨"sha256:abc123000000", ["tagA"], 1⟩ ∧
    image_status
        [("tagA", ⟨"sha256:abc123000000", ["tagA"], 1⟩),
         ("tagB", ⟨"sha256:xyz999000000", ["tagB"], 2⟩)]
        ⟨some ⟨"sha256:abc"⟩⟩ = .ok ⟨"sha256:abc123000000", ["tagA"], 1⟩ ∧
    image_status
        [("tagA", ⟨"sha256:abc123000000", ["tagA"], 1⟩),
         ("tagB", ⟨"sha256:xyz999000000", ["tagB"], 2⟩)]
        ⟨some ⟨"zzz"⟩⟩ = .error (.notFound "Image not found") :=
  ⟨(image_status_resolution_order
      [("tagA", ⟨"sha256:abc123000000", ["tagA"], 1⟩),
       ("tagB", ⟨"sha256:xyz999000000", ["tagB"], 2⟩)] ⟨"tagA"⟩).1 _ (by decide),
   (image_status_resolution_order
      [("tagA", ⟨"sha256:abc123000000", ["tagA"], 1⟩),
       ("tagB", ⟨"sha256:xyz999000000", ["tagB"], 2⟩)] ⟨"sha256:abc"⟩).2.1 _
      (by decide) (by decide),
   (image_status_resolution_order
      [("tagA", ⟨"sha256:abc123000000", ["tagA"], 1⟩),
       ("tagB", ⟨"sha256:xyz999000000", ["tagB"], 2⟩)] ⟨"zzz"⟩).2.2
      (by decide) (by decide)⟩

/-- Claim C8 (code bug witnessed): image_fs_info is a stub that fails with
NotFound on every request, instead of reporting filesystem usage of the
storage root. -/
theorem image_fs_info_always_not_found :
    image_fs_info ⟨⟩ = .error (.notFound "Image not found") := rfl

/-- Claim C9: for a pull whose reference parses and whose registry call
succeeds, pull_image panics when the response carries no digest
(digest.expect), panics when fewer than 12 characters remain after
stripping sha256: from the digest (the slice with upper bound 12), and
does not panic when a digest with at least 12 remaining characters is
present. -/
theorem pull_image_panic_conditions
    (registry : String → RegistryAuth → Except String ImageData)
    (o : PullOracle) (st : PullState) (req : PullImageRequest)
    (image_spec : ImageSpec) (data : ImageData)
    (hreq : req.image = some image_spec) (href : o.refValid = true)
    (hreg : registry image_spec.image RegistryAuth.anonymous = .ok data) :
    (data.digest = none → pull_image registry o st req = .panic) ∧
    (∀ d, data.digest = some d → (stripSha256 d.data).length < 12 →
      pull_image registry o st req = .panic) ∧
    (∀ d, data.digest = some d → 12 ≤ (stripSha256 d.data).length →
      pull_image registry o st req ≠ .panic) := by
  refine ⟨?_, ?_, ?_⟩
  · intro hd
    simp [pull_image, hreq, href, hreg, computeImageId, hd]
  · intro d hd hlt
    have hnle : ¬ 12 ≤ (stripSha256 d.data).length := by omega
    simp [pull_image, hreq, href, hreg, computeImageId, hd, hnle]
  · intro d hd hle
    rcases hE : o.createDirOk with - | -
    · simp [pull_image, hreq, href, hreg, computeImageId, hd, hle, hE]
    · rcases hF : writeLayers o
          (fsCreateDir st.fs ("sha256:" ++ String.mk ((stripSha256 d.data).take 12)))
          ("sha256:" ++ String.mk ((stripSha256 d.data).take 12))
          data.layers 0 with ⟨c2, fs2⟩ | fs2
      · simp [pull_image, hreq, href, hreg, computeImageId, hd, hle, hE, hF]
      · rcases hG : save_image_metadata o.metaDirOk o.metaWriteOk fs2
            ⟨"sha256:" ++ String.mk ((stripSha256 d.data).take 12), [image_spec.image], 0⟩
            with ⟨msg, fs3⟩ | fs3
        · simp [pull_image, hreq, href, hreg, computeImageId, hd, hle, hE, hF, hG]
        · simp [pull_image, hreq, href, hreg, computeImageId, hd, hle, hE, hF, hG]

/-- Witness for C9: a missing digest panics, a short digest panics, and
the long-digest pull does not panic. -/
theorem pull_image_panic_conditions_witness :
    pull_image (fun _ _ => .ok ⟨none, []⟩) ⟨true, true, fun _ => true, true, true⟩
      ⟨[], none⟩ ⟨some ⟨"library/test:latest"⟩, none⟩ = .panic ∧
    pull_image (fun _ _ => .ok ⟨some "sha256:abc", []⟩)
      ⟨true, true, fun _ => true, true, true⟩
      ⟨[], none⟩ ⟨some ⟨"library/test:latest"⟩, none⟩ = .panic ∧
    pull_image (fun _ _ => .ok ⟨some "sha256:deadbeefcafef00d1234", []⟩)
      ⟨true, true, fun _ => true, true, true⟩
      ⟨[], none⟩ ⟨some ⟨"library/test:latest"⟩, none⟩ ≠ .panic :=
  ⟨(pull_image_panic_conditions (fun _ _ => .ok ⟨none, []⟩)
      ⟨true, true, fun _ => true, true, true⟩ ⟨[], none⟩
      ⟨some ⟨"library/test:latest"⟩, none⟩ ⟨"library/test:latest"⟩
      ⟨none, []⟩ rfl rfl rfl).1 rfl,
   (pull_image_panic_conditions (fun _ _ => .ok ⟨some "sha256:abc", []⟩)
      ⟨true, true, fun _ => true, true, true⟩ ⟨[], none⟩
      ⟨some ⟨"library/test:latest"⟩, none⟩ ⟨"library/test:latest"⟩
      ⟨some "sha256:abc", []⟩ rfl rfl rfl).2.1 "sha256:abc" rfl (by decide),
   (pull_image_panic_conditions (fun _ _ => .ok ⟨some "sha256:deadbeefcafef00d1234", []⟩)
      ⟨true, true, fun _ => true, true, true⟩ ⟨[], none⟩
      ⟨some ⟨"library/test:latest"⟩, none⟩ ⟨"library/test:latest"⟩
      ⟨some "sha256:deadbeefcafef00d1234", []⟩ rfl rfl rfl).2.2
      "sha256:deadbeefcafef00d1234" rfl (by decide)⟩

/-- Claim C10: remove_image unwraps the optional image field and panics
(none) when it is absent, whereas image_status and pull_image answer
InvalidArgument for a missing field; when the field is present,
remove_image answers NotFound leaving the index untouched if the
reference has no entry, and otherwise removes exactly that entry. -/
theorem remove_image_unwrap_panic_and_removal (idx : List (String × Image)) :
    (∀ req : RemoveImageRequest, req.image = none → remove_image idx req = none) ∧
    (image_status idx ⟨none⟩ = .error (.invalidArgument "Image not specified")) ∧
    (∀ registry o st auth, pull_image registry o st ⟨none, auth⟩ =
      .failure (.invalidArgument "Image spec not specified") st) ∧
    (∀ image_spec : ImageSpec, alistLookup image_spec.image idx = none →
      remove_image idx ⟨some image_spec⟩ =
        some (.error (.notFound "Image not found"), idx)) ∧
    (∀ image_spec : ImageSpec, (alistLookup image_spec.image idx).isSome →
      remove_image idx ⟨some image_spec⟩ =
        some (.ok (), alistRemove image_spec.image idx) ∧
      alistLookup image_spec.image (alistRemove image_spec.image idx) = none) := by
  refine ⟨?_, rfl, ?_, ?_, ?_⟩
  · intro req hr
    simp [remove_image, hr]
  · intro registry o st auth
    rfl
  · intro image_spec hlk
    simp [remove_image, hlk, alistRemove_of_lookup_none idx hlk]
  · intro image_spec hs
    refine ⟨?_, alistLookup_remove_self _ _⟩
    simp [remove_image, hs]

/-- Witness for C10: concrete one-entry index exercising the panic case,
the InvalidArgument contrast, the NotFound case, and the removal case. -/
theorem remove_image_unwrap_panic_and_removal_witness :
    remove_image [("t", ⟨"sha256:abc123000000", ["t"], 1⟩)] ⟨none⟩ = none ∧
    image_status [("t", ⟨"sha256:abc123000000", ["t"], 1⟩)] ⟨none⟩ =
      .error (.invalidArgument "Image not specified") ∧
    pull_image (fun _ _ => .error "unreached") ⟨true, true, fun _ => true, true, true⟩
      ⟨[], none⟩ ⟨none, none⟩ =
      .failure (.invalidArgument "Image spec not specified") ⟨[], none⟩ ∧
    remove_image [("t", ⟨"sha256:abc123000000", ["t"], 1⟩)] ⟨some ⟨"zzz"⟩⟩ =
      some (.error (.notFound "Image not found"), [("t", ⟨"sha256:abc123000000", ["t"], 1⟩)]) ∧
    (remove_image [("t", ⟨"sha256:abc123000000", ["t"], 1⟩)] ⟨some ⟨"t"⟩⟩ =
      some (.ok (), alistRemove "t"
        ([("t", ⟨"sha256:abc123000000", ["t"], 1⟩)] : List (String × Image))) ∧
     alistLookup "t" (alistRemove "t"
        ([("t", ⟨"sha256:abc123000000", ["t"], 1⟩)] : List (String × Image))) = none) :=
  ⟨(remove_image_unwrap_panic_and_removal
      [("t", ⟨"sha256:abc123000000", ["t"], 1⟩)]).1 ⟨none⟩ rfl,
   (remove_image_unwrap_panic_and_removal
      [("t", ⟨"sha256:abc123000000", ["t"], 1⟩)]).2.1,
   (remove_image_unwrap_panic_and_removal
      [("t", ⟨"sha256:abc123000000", ["t"], 1⟩)]).2.2.1
     (fun _ _ => .error "unreached") ⟨true, true, fun _ => true, true, true⟩ ⟨[], none⟩ none,
   (remove_image_unwrap_panic_and_removal
      [("t", ⟨"sha256:abc123000000", ["t"], 1⟩)]).2.2.2.1 ⟨"zzz"⟩ (by decide),
   (remove_image_unwrap_panic_and_removal
      [("t", ⟨"sha256:abc123000000", ["t"], 1⟩)]).2.2.2.2 ⟨"t"⟩ (by decide)⟩

end Crius
